import Mathlib

/-!
Verification development for the CalcMySky precomputation pipeline
(src/shaders.cpp, src/generator/main.cpp).

Strings are modelled as lists of characters (`Str`); `splitLines` models
QTextStream::readLine, `simplified` models QString::simplified restricted to
ASCII whitespace, and `replaceAll` models QString::replace.
-/

namespace CalcMySky

/-- Strings of the embedded program, as character lists. -/
abbrev Str := List Char

/-- Decimal rendering of a natural number, modelling QString::arg(int). -/
def natStr (n : Nat) : Str := (Nat.repr n).data

/-- Whitespace as recognized by QChar::isSpace (ASCII part). -/
def isQtSpace (c : Char) : Bool :=
  c = ' ' || c = '\t' || c = '\n' || c = '\r' || c = '\x0b' || c = '\x0c'

/-- Split a string into maximal runs separated by whitespace; runs between two
adjacent whitespace characters are empty and are filtered out by `simplified`. -/
def wordsF (s : Str) : List Str :=
  s.foldr
    (fun c acc =>
      if isQtSpace c then [] :: acc
      else
        match acc with
        | [] => [[c]]
        | w :: ws => (c :: w) :: ws)
    []

/-- QString::simplified: trim leading/trailing whitespace and collapse every
internal whitespace run to a single space. -/
def simplified (s : Str) : Str :=
  List.intercalate [' '] ((wordsF s).filter (fun w => w ≠ []))

/-- QTextStream::readLine over a whole string: split at newline characters.
A trailing newline does not produce a final empty line; an empty string
produces no lines. -/
def splitLines : Str → List Str
  | [] => []
  | c :: rest =>
    if c = '\n' then [] :: splitLines rest
    else
      match splitLines rest with
      | [] => [[c]]
      | l :: ls => (c :: l) :: ls

/-- Re-join lines, terminating each with a newline (how withHeadersIncluded
re-emits lines it does not replace). -/
def joinNl (lines : List Str) : Str :=
  lines.foldr (fun l acc => l ++ '\n' :: acc) []

/-- Worker for `replaceAll`; the fuel is an upper bound on the number of scan
steps (each step consumes at least one character of the subject, so starting
the fuel at the subject's length makes the zero-fuel case unreachable). -/
def replaceAllAux (pat rep : Str) : Nat → Str → Str
  | 0, s => s
  | fuel + 1, s =>
    match s with
    | [] => []
    | c :: rest =>
      if pat ≠ [] ∧ pat.isPrefixOf (c :: rest) then
        rep ++ replaceAllAux pat rep fuel ((c :: rest).drop pat.length)
      else
        c :: replaceAllAux pat rep fuel rest

/-- QString::replace(before, after): scan left to right, replacing every
occurrence of `pat` by `rep` and continuing after the replacement.
An empty pattern leaves the subject unchanged. -/
def replaceAll (pat rep : Str) (s : Str) : Str :=
  replaceAllAux pat rep s.length s

/-! ### Include resolution (src/shaders.cpp, withHeadersIncluded) -/

/-- Modelled from the spec: the header name resolving to the generated
constants header; the defining config.h is not under src. -/
def CONSTANTS_HEADER_FILENAME : Str := ("const.h.glsl").data

/-- Modelled from the spec: the header name resolving to the generated
densities header; the defining config.h is not under src. -/
def DENSITIES_HEADER_FILENAME : Str := ("densities.h.glsl").data

/-- The global string state that withHeadersIncluded reads: the two in-memory
generated headers and the on-disk shader directory (getShaderSrc). -/
structure ShaderEnv where
  constantsHeader : Str
  densitiesHeader : Str
  disk : Str → Option Str

/-- The mandatory suffix of includable header names. -/
def headerSuffix : Str := (".h.glsl").data

/-- The literal prefix of an include directive, `#include "`. -/
def includeMark : Str := ("#include \x22").data

def quoteChar : Char := '\x22'

/-- Exact match of `^#include "([^"]+)"$`, returning the captured name. -/
def parseIncludeLine (line : Str) : Option Str :=
  let mid := (line.drop 10).dropLast
  if line = includeMark ++ mid ++ [quoteChar] ∧ mid ≠ [] ∧
      mid.all (fun c => c ≠ quoteChar) then
    some mid
  else
    none

/-- The test `line.simplified().startsWith("#include \"")` deciding whether a
line is treated as an include directive at all. -/
def isTriggerLine (line : Str) : Bool :=
  includeMark.isPrefixOf (simplified line)

/-- Number of include-triggering lines in a list (tracks headerNumber). -/
def countTriggers (lines : List Str) : Nat :=
  lines.countP (fun l => isTriggerLine l)

/-- Resolution of an include name: `const.h.glsl` and `densities.h.glsl` give
the in-memory generated headers, every other name is read from disk. -/
def resolveHeader (env : ShaderEnv) (name : Str) : Option Str :=
  if name = CONSTANTS_HEADER_FILENAME then some env.constantsHeader
  else if name = DENSITIES_HEADER_FILENAME then some env.densitiesHeader
  else env.disk name

/-- Ways withHeadersIncluded aborts the run (each prints and throws MustQuit). -/
inductive IncludeError where
  | syntaxError (filename : Str) (lineNumber : Nat)
  | badSuffix (filename : Str) (lineNumber : Nat)
  | missingFile (name : Str)
  deriving DecidableEq, Repr

/-- `#line 1 <headerNumber> // <includeFileName>`, emitted before a header. -/
def lineDirectiveBefore (headerNumber : Nat) (name : Str) : Str :=
  ("#line 1 ").data ++ natStr headerNumber ++ (" // ").data ++ name ++ ['\n']

/-- `#line <lineNumber> 0 // <filename>`, emitted after a header to restore the
numbering of the including file. -/
def lineDirectiveAfter (lineNumber : Nat) (filename : Str) : Str :=
  ("#line ").data ++ natStr lineNumber ++ (" 0 // ").data ++ filename ++ ['\n']

/-- The loop body of withHeadersIncluded over the lines of the source, with the
running lineNumber and headerNumber counters. -/
def includeLoop (env : ShaderEnv) (filename : Str) :
    List Str → Nat → Nat → Except IncludeError Str
  | [], _, _ => .ok []
  | line :: rest, lineNumber, headerNumber =>
    if isTriggerLine line then
      match parseIncludeLine line with
      | none => .error (.syntaxError filename lineNumber)
      | some name =>
        if headerSuffix.isSuffixOf name then
          match resolveHeader env name with
          | none => .error (.missingFile name)
          | some header =>
            (includeLoop env filename rest (lineNumber + 1) (headerNumber + 1)).map
              (fun tail =>
                lineDirectiveBefore headerNumber name ++ header ++
                  lineDirectiveAfter (lineNumber + 1) filename ++ tail)
        else
          .error (.badSuffix filename lineNumber)
    else
      (includeLoop env filename rest (lineNumber + 1) headerNumber).map
        (fun tail => line ++ '\n' :: tail)

/-- withHeadersIncluded(src, filename). -/
def withHeadersIncluded (env : ShaderEnv) (src filename : Str) :
    Except IncludeError Str :=
  includeLoop env filename (splitLines src) 1 1

/-! ### Generated shader sources (src/shaders.cpp) -/

/-- A species as the source generators see it for one wavelength set.
`crossSectionStr` is modelled from the spec: it stands for
`toString(species.crossSection(wavelengths))`, the GLSL literal 4-vector text
of the cross-section at the four wavelengths of the current set (toString is
defined in util.hpp, which is not under src). -/
structure SpeciesSrc where
  name : Str
  numberDensity : Str
  crossSectionStr : Str

/-- One scatterer entry of makeDensitiesFunctions. -/
def scattererNumberDensityFn (s : SpeciesSrc) : Str :=
  ("float scattererNumberDensity_").data ++ s.name ++
    ("(float altitude)\n\x7b\n").data ++ s.numberDensity ++ ("\x7d\n").data

/-- One absorber entry of makeDensitiesFunctions. -/
def absorberNumberDensityFn (s : SpeciesSrc) : Str :=
  ("float absorberNumberDensity_").data ++ s.name ++
    ("(float altitude)\n\x7b\n").data ++ s.numberDensity ++ ("\x7d\n").data

/-- makeDensitiesFunctions: scatterer densities, then absorber densities (the
forward-declarations header it also builds is carried in ShaderEnv). -/
def makeDensitiesFunctions (scatterers absorbers : List SpeciesSrc) : Str :=
  (scatterers.map scattererNumberDensityFn).flatten ++
    (absorbers.map absorberNumberDensityFn).flatten

/-- The head of the transmittance compute source (the `1+R"(...)"` literal). -/
def transmittanceHead : Str :=
  ("#version 330\n#extension GL_ARB_shading_language_420pack : require\n\n#include \x22const.h.glsl\x22\n#include \x22common-functions.h.glsl\x22\n").data

/-- The per-species optical-depth template with the `agent##` and
`##agentSpecies` substitution tokens. -/
def opticalDepthFunctionTemplate : Str :=
  ("\nvec4 opticalDepthToAtmosphereBorder_##agentSpecies(float altitude, float cosZenithAngle, vec4 crossSection)\n\x7b\n    const float integrInterval=distanceToAtmosphereBorder(cosZenithAngle, altitude);\n\n    const float R=earthRadius;\n    const float r1=R+altitude;\n    const float l=integrInterval;\n    const float mu=cosZenithAngle;\n    /* From law of cosines: r₂²=r₁²+l²+2r₁lμ */\n    const float endAltitude=-R+sqrt(sqr(r1)+sqr(l)+2*r1*l*mu);\n\n    const float dl=integrInterval/(numTransmittanceIntegrationPoints-1);\n\n    /* Using trapezoid rule on a uniform grid: f0/2+f1+f2+...+f(N-2)+f(N-1)/2. */\n    float sum=(agent##NumberDensity_##agentSpecies(altitude)+\n               agent##NumberDensity_##agentSpecies(endAltitude))/2;\n    for(int n=1;n<numTransmittanceIntegrationPoints-1;++n)\n    \x7b\n        const float dist=n*dl;\n        const float currAlt=-R+sqrt(sqr(r1)+sqr(dist)+2*r1*dist*mu);\n        sum+=agent##NumberDensity_##agentSpecies(currAlt);\n    \x7d\n    return sum*dl*crossSection;\n\x7d\n").data

def agentSpeciesToken : Str := ("##agentSpecies").data

def agentToken : Str := ("agent##").data

def scattererKind : Str := ("scatterer").data

def absorberKind : Str := ("absorber").data

/-- `QString(template).replace("##agentSpecies", name).replace("agent##", kind)`:
the per-species optical-depth function. -/
def opticalDepthFunctionFor (kind : Str) (s : SpeciesSrc) : Str :=
  replaceAll agentToken kind
    (replaceAll agentSpeciesToken s.name opticalDepthFunctionTemplate)

/-- Opening of computeTransmittanceToAtmosphereBorder. -/
def computeFunctionOpen : Str :=
  ("\n// This assumes that ray doesn\x27t intersect Earth\nvec4 computeTransmittanceToAtmosphereBorder(float cosZenithAngle, float altitude)\n\x7b\n    const vec4 depth=\n").data

/-- The per-species summand of the optical depth, with the cross-section
spliced in as literal source text. -/
def opticalDepthCallLine (s : SpeciesSrc) : Str :=
  ("        +opticalDepthToAtmosphereBorder_").data ++ s.name ++
    ("(altitude,cosZenithAngle,").data ++ s.crossSectionStr ++ (")\n").data

/-- Closing of computeTransmittanceToAtmosphereBorder: `exp(-depth)`. -/
def computeFunctionClose : Str :=
  ("      ;\n    return exp(-depth);\n\x7d\n").data

/-- Modelled from the spec: the logical name of the transmittance compute
shader (the defining config.h is not under src); main.cpp compiles it as
`compute-transmittance.frag`. -/
def COMPUTE_TRANSMITTANCE_SHADER_FILENAME : Str :=
  ("compute-transmittance.frag").data

/-- `QString("(virtual)%1").arg(name)`. -/
def virtualTag (name : Str) : Str := ("(virtual)").data ++ name

/-- makeTransmittanceComputeFunctionsSrc.  The C++ builds the optical-depth
functions and the summand lines of the compute function in one loop over
scatterers followed by one loop over absorbers, appending to two accumulator
strings; the concatenations below are those accumulators written out. -/
def makeTransmittanceComputeFunctionsSrc (env : ShaderEnv)
    (scatterers absorbers : List SpeciesSrc) : Except IncludeError Str :=
  let opticalDepthFunctions :=
    (scatterers.map (opticalDepthFunctionFor scattererKind)).flatten ++
      (absorbers.map (opticalDepthFunctionFor absorberKind)).flatten
  let computeFunction :=
    computeFunctionOpen ++ (scatterers.map opticalDepthCallLine).flatten ++
      (absorbers.map opticalDepthCallLine).flatten ++ computeFunctionClose
  withHeadersIncluded env
    (transmittanceHead ++ makeDensitiesFunctions scatterers absorbers ++
      opticalDepthFunctions ++ computeFunction)
    (virtualTag COMPUTE_TRANSMITTANCE_SHADER_FILENAME)

/-! ### Companion-source discovery (src/shaders.cpp, getShaderFileNamesToLinkWith) -/

/-- What getShaderFileNamesToLinkWith reads: the shader sources (getShaderSrc)
and the set of internal-only shaders (internalShaders, defined outside src). -/
structure LinkEnv where
  getSrc : Str → Option Str
  internalShaders : Str → Bool

/-- Companion fragment suffix. -/
def fragSuffix : Str := (".frag").data

/-- Exact match of `^#include "([^"]+)(\.h\.glsl)"$`, returning the first
capture (the base name without the `.h.glsl` suffix). -/
def parseLinkIncludeLine (line : Str) : Option Str :=
  match parseIncludeLine line with
  | none => none
  | some mid =>
    if headerSuffix.isSuffixOf mid ∧ headerSuffix.length < mid.length then
      some (mid.take (mid.length - headerSuffix.length))
    else
      none

/-- std::set<QString> modelled as a duplicate-free insertion list. -/
def insertSet (s : List Str) (x : Str) : List Str :=
  if x ∈ s then s else s ++ [x]

def unionSet (s t : List Str) : List Str := t.foldl insertSet s

inductive LinkError where
  | depthExceeded
  | missingFile (name : Str)
  deriving DecidableEq, Repr

/-- The body of the line loop of getShaderFileNamesToLinkWith for one line:
the constants header has no companion source; every other matched header
contributes its companion `.frag`, and non-internal companions different from
the current file are scanned recursively via `recurse` (the same function one
recursion level deeper). -/
def linkScanStep (env : LinkEnv) (filename : Str)
    (recurse : Str → Except LinkError (List Str)) (acc : List Str)
    (line : Str) : Except LinkError (List Str) :=
  match parseLinkIncludeLine line with
  | none => .ok acc
  | some base =>
    if base ++ headerSuffix = CONSTANTS_HEADER_FILENAME then .ok acc
    else
      let frag := base ++ fragSuffix
      let acc1 := insertSet acc frag
      if env.internalShaders frag ∨ frag = filename then .ok acc1
      else
        match recurse frag with
        | .error e => .error e
        | .ok extra => .ok (unionSet acc1 extra)

/-- getShaderFileNamesToLinkWith, with the recursion depth counted down as
fuel: fuel 0 is the state in which the C++ check `recursionDepth &gt; 50` fires,
and each recursive call burns one unit. -/
def linkFilesAux (env : LinkEnv) : Nat → Str → Except LinkError (List Str)
  | 0, _ => .error .depthExceeded
  | fuel + 1, filename =>
    match env.getSrc filename with
    | none => .error (.missingFile filename)
    | some src =>
      (splitLines src).foldlM
        (linkScanStep env filename (linkFilesAux env fuel)) []

/-- getShaderFileNamesToLinkWith(filename, recursionDepth): the C++ recursion
at depth d corresponds to `linkFilesAux` with fuel 51 − d, so the error is
raised exactly when the depth would exceed 50. -/
def getShaderFileNamesToLinkWith (env : LinkEnv) (filename : Str)
    (recursionDepth : Nat) : Except LinkError (List Str) :=
  linkFilesAux env (51 - recursionDepth) filename

/-- The companion fragments that a list of source lines makes the scan recurse
into (include directives whose header is not the constants header and whose
companion is neither internal nor the scanned file itself). -/
def recursedOfLines (env : LinkEnv) (filename : Str) (lines : List Str) :
    List Str :=
  (lines.filterMap parseLinkIncludeLine).filterMap
    (fun base =>
      if base ++ headerSuffix = CONSTANTS_HEADER_FILENAME then none
      else
        let frag := base ++ fragSuffix
        if env.internalShaders frag ∨ frag = filename then none
        else some frag)

/-- The companion fragments a given source makes the scan recurse into. -/
def linkRecursedIncludes (env : LinkEnv) (filename src : Str) : List Str :=
  recursedOfLines env filename (splitLines src)

/-- The edges of the include graph out of a file: every companion fragment its
include directives mention (except the constants header, which has none). -/
def includeMentions (env : LinkEnv) (filename : Str) : List Str :=
  match env.getSrc filename with
  | none => []
  | some src =>
    ((splitLines src).filterMap parseLinkIncludeLine).filterMap
      (fun base =>
        if base ++ headerSuffix = CONSTANTS_HEADER_FILENAME then none
        else some (base ++ fragSuffix))

/-- `Avail env f n`: the file exists and every chain of recursed includes
starting at `f` makes fewer than `n` file visits; `Avail env f 51` says the
recursion from `f` at depth 0 stays within the depth-50 budget. -/
inductive Avail (env : LinkEnv) : Str → Nat → Prop where
  | step (filename : Str) (n : Nat) (src : Str)
      (hsrc : env.getSrc filename = some src)
      (hrec : ∀ g ∈ linkRecursedIncludes env filename src, Avail env g n) :
      Avail env filename (n + 1)

/-! ### The accumulate pass (src/generator/main.cpp, accumulateMultipleScattering) -/

/-- glm::vec4 over exact rationals. -/
abbrev Vec4Q := Fin 4 → ℚ

/-- glm::mat4 over exact rationals, column-major: `A c r` is column c, row r. -/
abbrev Mat4 := Fin 4 → Fin 4 → ℚ

def zeroV : Vec4Q := fun _ => 0

/-- The local diag() helper of accumulateMultipleScattering. -/
def diagM (x y z w : ℚ) : Mat4 :=
  fun c r => if c = r then ![x, y, z, w] c else 0

/-- glm matrix product: `(A*B)[c][r] = Σ k, A[k][r] * B[c][k]`. -/
def matMul (A B : Mat4) : Mat4 :=
  fun c r => ∑ k : Fin 4, A k r * B c k

/-- glm matrix-by-scalar product, componentwise. -/
def smulM (A : Mat4) (t : ℚ) : Mat4 := fun c r => A c r * t

/-- glm::mat4 built from four column vectors. -/
def mat4FromCols (c0 c1 c2 c3 : Vec4Q) : Mat4 :=
  fun c => ![c0, c1, c2, c3] c

/-- diag(683.002, 683.002, 683.002, 1700.13) lm/W. -/
def maxLuminousEfficacy : Mat4 := diagM 683.002 683.002 683.002 1700.13

/-- The generator state accumulateMultipleScattering reads: output mode,
wavelength schedule, the CIE color-matching function (cie-xyzw-functions.hpp
is not under src, so it stays abstract), orders to compute, output dir. -/
structure GenCfg where
  saveResultAsRadiance : Bool
  allWavelengths : List Vec4Q
  wavelengthToXYZW : ℚ → Vec4Q
  scatteringOrdersToCompute : Nat
  textureOutputDir : Str

/-- The externally visible decisions of one call of
accumulateMultipleScattering: whether additive blending is enabled for the
pass, the radianceToLuminance uniform (set only in luminance mode), and the
final accumulator file written at the end (if any). -/
structure AccumResult where
  blendEnabled : Bool
  radianceToLuminance : Option Mat4
  savedFile : Option Str

/-- accumulateMultipleScattering(scatteringOrder, texIndex). -/
def accumulateMultipleScattering (cfg : GenCfg)
    (scatteringOrder texIndex : Nat) : AccumResult :=
  let blend : Bool :=
    decide (2 < scatteringOrder) ||
      (decide (0 < texIndex) && !cfg.saveResultAsRadiance)
  let rtl : Option Mat4 :=
    if cfg.saveResultAsRadiance then none
    else
      let wlCount := 4 * cfg.allWavelengths.length
      let weights : Mat4 :=
        if wlCount = 4 then diagM 0.5 1 1 0.5
        else if texIndex = 0 then diagM 0.5 1 1 1
        else if texIndex + 1 = wlCount / 4 then diagM 1 1 1 0.5
        else diagM 1 1 1 1
      let dlambda : Mat4 :=
        smulM weights
          (|(cfg.allWavelengths.getLastD zeroV) 3 -
              (cfg.allWavelengths.headD zeroV) 0| / ((wlCount : ℚ) - 1))
      let lam := cfg.allWavelengths.getD texIndex zeroV
      some (matMul
        (matMul maxLuminousEfficacy
          (mat4FromCols (cfg.wavelengthToXYZW (lam 0))
            (cfg.wavelengthToXYZW (lam 1)) (cfg.wavelengthToXYZW (lam 2))
            (cfg.wavelengthToXYZW (lam 3))))
        dlambda)
  let saved : Option Str :=
    if scatteringOrder = cfg.scatteringOrdersToCompute ∧
        (texIndex + 1 = cfg.allWavelengths.length ∨
          cfg.saveResultAsRadiance) then
      some (if cfg.saveResultAsRadiance then
          cfg.textureOutputDir ++ ("/multiple-scattering-wlset").data ++
            natStr texIndex ++ (".f32").data
        else
          cfg.textureOutputDir ++ ("/multiple-scattering-xyzw.f32").data)
    else
      none
  { blendEnabled := blend, radianceToLuminance := rtl, savedFile := saved }

/-- The 4x4 trapezoid weight table as the spec states it, indexed by the total
number of sets N and the set index k. -/
def trapWeightsSpec (N k : Nat) : Mat4 :=
  if N = 1 then diagM 0.5 1 1 0.5
  else if k = 0 then diagM 0.5 1 1 1
  else if k = N - 1 then diagM 1 1 1 0.5
  else diagM 1 1 1 1

/-- The radiance-to-luminance matrix as the spec states it:
maxLuminousEfficacy times the matrix of wavelengthToXYZW columns times the
trapezoid weights scaled by `|λ_last − λ_first| / (4N − 1)`. -/
def radianceToLuminanceSpec (xyzw : ℚ → Vec4Q) (allWavelengths : List Vec4Q)
    (k : Nat) : Mat4 :=
  let N := allWavelengths.length
  let lam := allWavelengths.getD k zeroV
  let cie := mat4FromCols (xyzw (lam 0)) (xyzw (lam 1)) (xyzw (lam 2))
    (xyzw (lam 3))
  let dlam : ℚ :=
    |(allWavelengths.getLastD zeroV) 3 - (allWavelengths.headD zeroV) 0| /
      (4 * (N : ℚ) - 1)
  matMul (matMul maxLuminousEfficacy cie) (smulM (trapWeightsSpec N k) dlam)

/-! ### Order-1 indirect irradiance blending (src/generator/main.cpp) -/

/-- Per-attachment blend state of the irradiance framebuffer: attachment 0 is
the delta-irradiance texture, attachment 1 the accumulated irradiance. The
blend equation is GL_ONE,GL_ONE (additive), set once by the order-2 driver. -/
structure IrradianceBlendState where
  deltaBlend : Bool
  accumBlend : Bool

/-- The glEnablei/glDisablei calls of computeIndirectIrradianceOrder1:
the first scatterer overwrites the delta-irradiance texture, later ones blend
into it; total irradiance is always accumulated. -/
def computeIndirectIrradianceOrder1BlendState (texIndex scattererIndex : Nat) :
    IrradianceBlendState :=
  { deltaBlend := if scattererIndex = 0 then false else true,
    accumBlend := true }

/-! ### Shader cache coherence (src/generator/main.cpp, src/shaders.cpp) -/

/-- The cache-affecting actions of the scheduler: `allShaders.erase`,
`allShaders.clear`, a rewrite of a virtual source file, and the compilation
of a file through getOrCompileShader. -/
inductive SchedulerEvent where
  | eraseShader (name : Str)
  | clearShaders
  | writeVirtual (name : Str)
  | compileOf (name : Str)
  deriving DecidableEq

/-- Cache state: `cache f` is the version of `f` a cached shader was compiled
from (none when absent), `virt f` the current version of virtual file `f`. -/
structure CacheState where
  cache : Str → Option Nat
  virt : Str → Nat

/-- One step: erase and clear drop cache entries; a virtual rewrite bumps the
file version; getOrCompileShader compiles at the current version on a miss
and leaves the cache unchanged on a hit. -/
def applyEvent (s : CacheState) : SchedulerEvent → CacheState
  | .eraseShader n =>
    { s with cache := fun m => if m = n then none else s.cache m }
  | .clearShaders => { s with cache := fun _ => none }
  | .writeVirtual n =>
    { s with virt := fun m => if m = n then s.virt m + 1 else s.virt m }
  | .compileOf n =>
    match s.cache n with
    | some _ => s
    | none =>
      { s with cache := fun m => if m = n then some (s.virt n) else s.cache m }

def applyEvents (s : CacheState) (es : List SchedulerEvent) : CacheState :=
  es.foldl applyEvent s

/-- Every cached shader was compiled from the current version of its file. -/
def Coherent (s : CacheState) : Prop :=
  ∀ n v, s.cache n = some v → v = s.virt n

/-- A compile served from the cache must find the current version (otherwise
getOrCompileShader would return a stale shader). -/
def compileFresh (s : CacheState) : SchedulerEvent → Prop
  | .compileOf n => ∀ v, s.cache n = some v → v = s.virt n
  | _ => True

/-- All compiles along a trace are fresh. -/
def FreshRun (s : CacheState) : List SchedulerEvent → Prop
  | [] => True
  | e :: es => compileFresh s e ∧ FreshRun (applyEvent s e) es

/-- compileShaderProgram: getOrCompileShader on the main file, its discovered
companions and the fixed stages (the exact file list is irrelevant here). -/
def compileProgramEvents (files : List Str) : List SchedulerEvent :=
  files.map .compileOf

/-- The parameters the per-wavelength-set trace depends on: the names of the
four rewritten virtual files and of the other generated sources, the number
of scatterers, the number of scattering orders beyond 2, and the file lists
each compileShaderProgram call touches. -/
structure TraceParams where
  transmittanceName : Str
  phaseFunctionsName : Str
  totalScatteringName : Str
  densitiesName : Str
  scatteringDensityName : Str
  indirectIrradianceName : Str
  numScatterers : Nat
  numHigherOrders : Nat
  transmittanceFiles : List Str
  directIrradianceFiles : List Str
  scatDensityGroundFiles : List Str
  singleScatteringFiles : Nat → List Str
  scatDensityFiles : Nat → List Str
  indirectIrradianceO1Files : Nat → List Str
  copyScatteringFiles : List Str
  scatDensityHigherFiles : Nat → List Str
  indirectIrradianceFiles : Nat → List Str
  multipleScatteringFiles : Nat → List Str
  copyScatteringHigherFiles : Nat → List Str

/-- The `allShaders.erase(NAME); virtualSourceFiles[NAME]=...` idiom that every
rewrite of a virtual source file in the scheduler follows: the cache entry is
evicted, then the file version changes. -/
def evictRewrite (n : Str) : List SchedulerEvent :=
  [.eraseShader n, .writeVirtual n]

/-- computeSingleScattering: evict and rewrite the densities source, then
compile the single-scattering program. -/
def singleScatteringTrace (p : TraceParams) (i : Nat) : List SchedulerEvent :=
  evictRewrite p.densitiesName ++
    compileProgramEvents (p.singleScatteringFiles i)

/-- computeIndirectIrradianceOrder1: evict and rewrite phase functions and the
indirect-irradiance source, then compile. -/
def indirectIrradianceOrder1Trace (p : TraceParams) (i : Nat) :
    List SchedulerEvent :=
  evictRewrite p.phaseFunctionsName ++
    evictRewrite p.indirectIrradianceName ++
    compileProgramEvents (p.indirectIrradianceO1Files i)

/-- The per-scatterer body of computeScatteringDensityOrder2. -/
def scattererBodyTrace (p : TraceParams) (i : Nat) : List SchedulerEvent :=
  singleScatteringTrace p i ++
    (evictRewrite p.phaseFunctionsName ++
      evictRewrite p.scatteringDensityName ++
      compileProgramEvents (p.scatDensityFiles i)) ++
    indirectIrradianceOrder1Trace p i

/-- computeScatteringDensityOrder2: densities and the phase-function stub are
rewritten, the ground-only scattering-density program compiled, then each
scatterer is processed in declaration order. -/
def scatteringDensityOrder2Trace (p : TraceParams) : List SchedulerEvent :=
  evictRewrite p.densitiesName ++
    evictRewrite p.phaseFunctionsName ++
    evictRewrite p.scatteringDensityName ++
    compileProgramEvents p.scatDensityGroundFiles ++
    ((List.range p.numScatterers).map (scattererBodyTrace p)).flatten

/-- One order ≥ 3 iteration: computeScatteringDensity,
computeIndirectIrradiance, computeMultipleScatteringFromDensity and the
accumulate pass. -/
def higherOrderTrace (p : TraceParams) (o : Nat) : List SchedulerEvent :=
  evictRewrite p.scatteringDensityName ++
    compileProgramEvents (p.scatDensityHigherFiles o) ++
    (evictRewrite p.indirectIrradianceName ++
      compileProgramEvents (p.indirectIrradianceFiles o)) ++
    compileProgramEvents (p.multipleScatteringFiles o) ++
    compileProgramEvents (p.copyScatteringHigherFiles o)

/-- The whole per-wavelength-set body of main(): clear the shader cache,
regenerate the three virtual sources, compute transmittance and direct
irradiance, then the interleaved order-2 computation and the higher orders. -/
def perSetTrace (p : TraceParams) : List SchedulerEvent :=
  [.clearShaders, .writeVirtual p.transmittanceName,
      .writeVirtual p.phaseFunctionsName,
      .writeVirtual p.totalScatteringName] ++
    compileProgramEvents p.transmittanceFiles ++
    compileProgramEvents p.directIrradianceFiles ++
    scatteringDensityOrder2Trace p ++
    compileProgramEvents p.copyScatteringFiles ++
    ((List.range p.numHigherOrders).map (higherOrderTrace p)).flatten

/-- A trace fragment that keeps the cache coherent and whose compiles are all
fresh, from any coherent start state. -/
def GoodChunk (t : List SchedulerEvent) : Prop :=
  ∀ s : CacheState, Coherent s → FreshRun s t ∧ Coherent (applyEvents s t)

/-- Minimal trace parameters for the witness. -/
def traceParams0 : TraceParams where
  transmittanceName := ("t").data
  phaseFunctionsName := ("p").data
  totalScatteringName := ("ts").data
  densitiesName := ("d").data
  scatteringDensityName := ("sd").data
  indirectIrradianceName := ("ii").data
  numScatterers := 1
  numHigherOrders := 1
  transmittanceFiles := [("t.frag").data]
  directIrradianceFiles := [("di.frag").data]
  scatDensityGroundFiles := [("sd.frag").data]
  singleScatteringFiles := fun _ => [("ss.frag").data]
  scatDensityFiles := fun _ => [("sd.frag").data]
  indirectIrradianceO1Files := fun _ => [("ii.frag").data]
  copyScatteringFiles := [("copy.frag").data]
  scatDensityHigherFiles := fun _ => [("sd.frag").data]
  indirectIrradianceFiles := fun _ => [("ii.frag").data]
  multipleScatteringFiles := fun _ => [("ms.frag").data]
  copyScatteringHigherFiles := fun _ => [("copy.frag").data]

/-- The empty cache with all file versions at 0. -/
def cacheState0 : CacheState where
  cache := fun _ => none
  virt := fun _ => 0

/-! ### Compile-failure dump (src/shaders.cpp, compileShader) -/

/-- \w of QRegExp: letters, digits, underscore. -/
def isWordChar (c : Char) : Bool := c.isAlphanum || c = '_'

/-- Exact match of `^\s*#\s*line\s+([0-9]+)\b.*` returning the captured
number (QString::toInt of the digit run). -/
def parseLineDirective (line : Str) : Option Nat :=
  match line.dropWhile (fun c => isQtSpace c) with
  | [] => none
  | c :: s2 =>
    if c = '#' then
      let s3 := (c :: s2).drop 1 |>.dropWhile (fun c => isQtSpace c)
      if ("line").data.isPrefixOf s3 then
        let s4 := s3.drop 4
        let ws := s4.takeWhile (fun c => isQtSpace c)
        let s5 := s4.dropWhile (fun c => isQtSpace c)
        let digits := s5.takeWhile (fun c => c.isDigit)
        let rest := s5.dropWhile (fun c => c.isDigit)
        if ws ≠ [] ∧ digits ≠ [] ∧
            (match rest with | [] => true | d :: _ => !isWordChar d) = true then
          some (digits.foldl (fun n c => n * 10 + (c.toNat - 48)) 0)
        else
          none
      else
        none
    else
      none

/-- The error-dump loop of compileShader: each line is printed with the
running lineNumber; a `#line n` directive resets the counter so that the
following line is numbered n. -/
def dumpLinesFrom : List Str → Nat → List (Nat × Str)
  | [], _ => []
  | line :: rest, lineNumber =>
    (lineNumber, line) ::
      dumpLinesFrom rest
        (match parseLineDirective line with
         | some n => n
         | none => lineNumber + 1)

/-- The numbered source dump printed on a compile failure. -/
def numberedDump (source : Str) : List (Nat × Str) :=
  dumpLinesFrom (splitLines source) 1

/-- Outcomes of compileShader that abort the run. -/
inductive ShaderFailure where
  | includeFailed (e : IncludeError)
  | compileFailed (dump : List (Nat × Str))
  deriving DecidableEq

/-- compileShader(type, source, description): assemble the source through
withHeadersIncluded, hand it to the GPU compiler (abstract `gpuAccepts`); on
rejection print the numbered dump and throw MustQuit. -/
def compileShaderModel (env : ShaderEnv) (gpuAccepts : Str → Bool)
    (source description : Str) : Except ShaderFailure Str :=
  match withHeadersIncluded env source description with
  | .error e => .error (.includeFailed e)
  | .ok assembled =>
    if gpuAccepts assembled then .ok assembled
    else .error (.compileFailed (numberedDump assembled))

/-- main() catches MustQuit and returns 1; a successful run returns normally. -/
def generatorExitCode {α : Type} (run : Except ShaderFailure α) : Nat :=
  match run with
  | .ok _ => 0
  | .error _ => 1

/-- The index and value of the last `#line` directive strictly before line i. -/
def lastDirectiveBefore (lines : List Str) : Nat → Option (Nat × Nat)
  | 0 => none
  | i + 1 =>
    match parseLineDirective (lines.getD i []) with
    | some n => some (i, n)
    | none => lastDirectiveBefore lines i

/-- The line number the dump should assign to line i of the assembled source
(0-based): counting from the value of the last preceding `#line` directive,
or from 1 at the top of the file. -/
def specLineNumber (lines : List Str) (i : Nat) : Nat :=
  match lastDirectiveBefore lines i with
  | some (j, n) => n + (i - j) - 1
  | none => i + 1

/-- The text of an include directive line for a given header name. -/
def includeLineOf (name : Str) : Str := includeMark ++ name ++ [quoteChar]

/-! ### Concrete instances used to exhibit counterexamples and witnesses -/

/-- A radiance-mode configuration (saveResultAsRadiance = true). -/
def cfgRadiance : GenCfg where
  saveResultAsRadiance := true
  allWavelengths := []
  wavelengthToXYZW := fun _ => zeroV
  scatteringOrdersToCompute := 0
  textureOutputDir := []

/-- A luminance-mode configuration with a single wavelength set. -/
def cfgLuminance : GenCfg where
  saveResultAsRadiance := false
  allWavelengths := [fun _ => 500]
  wavelengthToXYZW := fun _ _ => 1
  scatteringOrdersToCompute := 2
  textureOutputDir := []

/-- An include environment for witnesses: the disk holds a plain header and a
header whose own text contains a further include directive. -/
def envW : ShaderEnv where
  constantsHeader := ("CONSTS\n").data
  densitiesHeader := ("DENS\n").data
  disk := fun n =>
    if n = ("common-functions.h.glsl").data then some (("COMMON\n").data)
    else if n = ("nested.h.glsl").data then
      some (includeLineOf (("other.h.glsl").data) ++ '\n' :: ("AFTER\n").data)
    else none

/-- A scatterer for witnesses. -/
def speciesAir : SpeciesSrc where
  name := ("air").data
  numberDensity := ("return exp(-altitude/8000);\n").data
  crossSectionStr := ("vec4(1,2,3,4)").data

/-- An absorber for witnesses. -/
def speciesOzone : SpeciesSrc where
  name := ("ozone").data
  numberDensity := ("return 1;\n").data
  crossSectionStr := ("vec4(5,6,7,8)").data

/-- A shader set with a self-include: `a.frag` includes `a.h.glsl`, whose
companion source is `a.frag` itself; all other files are empty. -/
def lenvSelf : LinkEnv where
  getSrc := fun n =>
    if n = ("a.frag").data then
      some (includeLineOf (("a.h.glsl").data) ++ ['\n'])
    else
      some []
  internalShaders := fun _ => false

instance {e a : Type} [DecidableEq e] [DecidableEq a] :
    DecidableEq (Except e a) := fun x y =>
  match x, y with
  | .ok u, .ok v =>
    if h : u = v then isTrue (by rw [h]) else isFalse (by simp [h])
  | .error u, .error v =>
    if h : u = v then isTrue (by rw [h]) else isFalse (by simp [h])
  | .ok _, .error _ => isFalse (by simp)
  | .error _, .ok _ => isFalse (by simp)

/-! ## Theorems -/

/-- C4: during the order-2 interleaving, the order-1 indirect irradiance pass
for the scatterer at declaration index i disables blending on the
delta-irradiance attachment (overwriting it) iff i = 0, enables additive
blending on it for every i > 0, and always enables additive blending on the
accumulated-irradiance attachment, for every wavelength set. -/
theorem indirectIrradianceOrder1_blend_correct :
    ∀ texIndex scattererIndex : Nat,
      ((computeIndirectIrradianceOrder1BlendState texIndex
          scattererIndex).deltaBlend = false ↔ scattererIndex = 0) ∧
      (computeIndirectIrradianceOrder1BlendState texIndex
          scattererIndex).accumBlend = true := by
  intro t i
  refine ⟨?_, rfl⟩
  unfold computeIndirectIrradianceOrder1BlendState
  by_cases hi : i = 0 <;> simp [hi]

/-- C7: the final multiple-scattering accumulator file is written exactly when
the current order equals scatteringOrdersToCompute and, in radiance mode, at
every wavelength set k under the name multiple-scattering-wlset&lt;k&gt;.f32, while
in luminance mode only when k is the last set, under the name
multiple-scattering-xyzw.f32. -/
theorem accumulate_savedFile_correct :
    ∀ (cfg : GenCfg) (o k : Nat),
      ((accumulateMultipleScattering cfg o k).savedFile ≠ none ↔
        (o = cfg.scatteringOrdersToCompute ∧
          (cfg.saveResultAsRadiance = true ∨
            k + 1 = cfg.allWavelengths.length))) ∧
      (cfg.saveResultAsRadiance = true →
        (accumulateMultipleScattering cfg o k).savedFile =
          if o = cfg.scatteringOrdersToCompute then
            some (cfg.textureOutputDir ++ ("/multiple-scattering-wlset").data ++
              natStr k ++ (".f32").data)
          else none) ∧
      (cfg.saveResultAsRadiance = false →
        (accumulateMultipleScattering cfg o k).savedFile =
          if o = cfg.scatteringOrdersToCompute ∧
              k + 1 = cfg.allWavelengths.length then
            some (cfg.textureOutputDir ++
              ("/multiple-scattering-xyzw.f32").data)
          else none) := by
  intro cfg o k
  unfold accumulateMultipleScattering
  dsimp only
  refine ⟨?_, ?_, ?_⟩
  · constructor
    · intro hne
      by_cases hcond : o = cfg.scatteringOrdersToCompute ∧
          (k + 1 = cfg.allWavelengths.length ∨ cfg.saveResultAsRadiance = true)
      · exact ⟨hcond.1, hcond.2.symm⟩
      · rw [if_neg hcond] at hne
        exact absurd rfl hne
    · rintro ⟨h1, h2⟩
      rw [if_pos ⟨h1, h2.symm⟩]
      simp
  · intro hsave
    simp [hsave]
  · intro hsave
    simp [hsave]

theorem accumulate_savedFile_correct_witness :
    (cfgRadiance.saveResultAsRadiance = true ∧
      (accumulateMultipleScattering cfgRadiance 2 1).savedFile =
        (if 2 = cfgRadiance.scatteringOrdersToCompute then
          some (cfgRadiance.textureOutputDir ++
            ("/multiple-scattering-wlset").data ++ natStr 1 ++ (".f32").data)
        else none)) ∧
    (cfgLuminance.saveResultAsRadiance = false ∧
      (accumulateMultipleScattering cfgLuminance 2 0).savedFile =
        (if 2 = cfgLuminance.scatteringOrdersToCompute ∧
            0 + 1 = cfgLuminance.allWavelengths.length then
          some (cfgLuminance.textureOutputDir ++
            ("/multiple-scattering-xyzw.f32").data)
        else none)) :=
  ⟨⟨rfl, (accumulate_savedFile_correct cfgRadiance 2 1).2.1 rfl⟩,
    ⟨rfl, (accumulate_savedFile_correct cfgLuminance 2 0).2.2 rfl⟩⟩

/-- C3 counterexample: the claim states that blending for the accumulate pass
is disabled only at order 2, set 0, in luminance mode; but in radiance mode
the code disables blending at order 2 of EVERY set (the accumulator restarts
per set), e.g. at order 2, set 1. -/
theorem accumulate_blend_claim_false :
    ¬ (∀ (cfg : GenCfg) (o k : Nat), 2 ≤ o →
        ((accumulateMultipleScattering cfg o k).blendEnabled = false →
          o = 2 ∧ k = 0 ∧ cfg.saveResultAsRadiance = false)) := by
  intro h
  have hres := h cfgRadiance 2 1 (by decide) rfl
  exact absurd hres.2.1 (by decide)

/-- C3 amended: for every accumulate pass (order o ≥ 2), additive blending is
disabled exactly when o = 2 and either the output mode is radiance or the
wavelength set is the first one; equivalently it is enabled for all o &gt; 2,
and at o = 2 only for the sets k &gt; 0 of luminance mode. -/
theorem accumulate_blend_amended :
    ∀ (cfg : GenCfg) (o k : Nat), 2 ≤ o →
      ((accumulateMultipleScattering cfg o k).blendEnabled = false ↔
        (o = 2 ∧ (cfg.saveResultAsRadiance = true ∨ k = 0))) := by
  intro cfg o k ho
  unfold accumulateMultipleScattering
  dsimp only
  cases hs : cfg.saveResultAsRadiance
  · simp only [hs, Bool.not_false, Bool.and_true, Bool.or_eq_false_iff,
      decide_eq_false_iff_not, not_lt]
    constructor
    · rintro ⟨h1, h2⟩
      exact ⟨by omega, Or.inr (by omega)⟩
    · rintro ⟨h1, hk⟩
      rcases hk with hk | hk
      · exact absurd hk (by simp [hs])
      · exact ⟨by omega, by omega⟩
  · simp only [hs, Bool.not_true, Bool.and_false, Bool.or_false,
      decide_eq_false_iff_not, not_lt]
    constructor
    · intro h1
      exact ⟨by omega, Or.inl (by simp [hs])⟩
    · rintro ⟨h1, _⟩
      omega

theorem accumulate_blend_amended_witness :
    2 ≤ 2 ∧
      ((accumulateMultipleScattering cfgRadiance 2 1).blendEnabled = false ↔
        (2 = 2 ∧ (cfgRadiance.saveResultAsRadiance = true ∨ 1 = 0))) :=
  ⟨by decide, accumulate_blend_amended cfgRadiance 2 1 (by decide)⟩

theorem weights_table_eq (N k : Nat) (hk : k < N) :
    (if 4 * N = 4 then diagM 0.5 1 1 0.5
     else if k = 0 then diagM 0.5 1 1 1
     else if k + 1 = (4 * N) / 4 then diagM 1 1 1 0.5
     else diagM 1 1 1 1) = trapWeightsSpec N k := by
  unfold trapWeightsSpec
  have h4 : (4 * N) / 4 = N := by omega
  rw [h4]
  by_cases h1 : N = 1
  · have hk0 : k = 0 := by omega
    subst h1; subst hk0
    simp
  · rw [if_neg (show ¬ 4 * N = 4 by omega), if_neg h1]
    by_cases hk0 : k = 0
    · simp [hk0]
    · rw [if_neg hk0, if_neg hk0]
      by_cases hk1 : k + 1 = N
      · rw [if_pos hk1, if_pos (show k = N - 1 by omega)]
      · rw [if_neg hk1, if_neg (show ¬ k = N - 1 by omega)]

/-- C1: in luminance-output mode, for wavelength set k of N, the accumulate
pass builds its radiance-to-luminance matrix as maxLuminousEfficacy
(diag(683.002, 683.002, 683.002, 1700.13)) times the matrix whose columns are
wavelengthToXYZW of the set's four wavelengths, times the diagonal trapezoid
weight matrix of the spec's table scaled by `|λ_last − λ_first| / (4N − 1)`. -/
theorem accumulate_radianceToLuminance_correct :
    ∀ (cfg : GenCfg) (o k : Nat),
      cfg.saveResultAsRadiance = false → k < cfg.allWavelengths.length →
      (accumulateMultipleScattering cfg o k).radianceToLuminance =
        some (radianceToLuminanceSpec cfg.wavelengthToXYZW
          cfg.allWavelengths k) := by
  intro cfg o k hsave hk
  simp only [accumulateMultipleScattering, radianceToLuminanceSpec]
  simp only [hsave, Bool.false_eq_true, if_false]
  rw [weights_table_eq cfg.allWavelengths.length k hk]
  have hc : ((4 * cfg.allWavelengths.length : Nat) : ℚ) - 1 =
      4 * (cfg.allWavelengths.length : ℚ) - 1 := by
    push_cast
    ring
  rw [hc]

theorem accumulate_radianceToLuminance_correct_witness :
    cfgLuminance.saveResultAsRadiance = false ∧ 0 < cfgLuminance.allWavelengths.length ∧
      (accumulateMultipleScattering cfgLuminance 2 0).radianceToLuminance =
        some (radianceToLuminanceSpec cfgLuminance.wavelengthToXYZW
          cfgLuminance.allWavelengths 0) :=
  ⟨rfl, by decide,
    accumulate_radianceToLuminance_correct cfgLuminance 2 0 rfl (by decide)⟩

/-! ### Line-splitting lemmas -/

theorem splitLines_ne_nil (s : Str) (h : s ≠ []) : splitLines s ≠ [] := by
  cases s with
  | nil => exact absurd rfl h
  | cons c rest =>
    unfold splitLines
    by_cases hc : c = '\n'
    · simp [hc]
    · simp only [hc, if_false]
      cases hrest : splitLines rest <;> simp

theorem splitLines_cons (c : Char) (s : Str) :
    splitLines (c :: s) =
      if c = '\n' then [] :: splitLines s
      else
        match splitLines s with
        | [] => [[c]]
        | l :: ls => (c :: l) :: ls := rfl

theorem splitLines_append (a b : Str) (ha : a.getLast? = some '\n') :
    splitLines (a ++ b) = splitLines a ++ splitLines b := by
  induction a with
  | nil => simp at ha
  | cons c rest ih =>
    by_cases hr : rest = []
    · subst hr
      have hc : c = '\n' := by simpa using ha
      subst hc
      simp [splitLines]
    · have ha2 : rest.getLast? = some '\n' := by
        rw [show c :: rest = [c] ++ rest from rfl,
          List.getLast?_append_of_ne_nil _ hr] at ha
        exact ha
      have hout := ih ha2
      by_cases hc : c = '\n'
      · subst hc
        show splitLines ('\n' :: (rest ++ b)) = splitLines ('\n' :: rest) ++ _
        rw [splitLines_cons, splitLines_cons, if_pos rfl, if_pos rfl, hout]
        rfl
      · have hne : splitLines rest ≠ [] := splitLines_ne_nil rest hr
        cases hsr : splitLines rest with
        | nil => exact absurd hsr hne
        | cons l ls =>
          show splitLines (c :: (rest ++ b)) = splitLines (c :: rest) ++ _
          rw [splitLines_cons, splitLines_cons, if_neg hc, if_neg hc, hout, hsr]
          rfl

theorem splitLines_append' (a b : Str) (ha : a = [] ∨ a.getLast? = some '\n') :
    splitLines (a ++ b) = splitLines a ++ splitLines b := by
  rcases ha with ha | ha
  · subst ha
    rfl
  · exact splitLines_append a b ha

theorem joinNl_splitLines (s : Str) (hs : s.getLast? = some '\n') :
    joinNl (splitLines s) = s := by
  induction s with
  | nil => simp at hs
  | cons c rest ih =>
    by_cases hr : rest = []
    · subst hr
      have hc : c = '\n' := by simpa using hs
      subst hc
      rfl
    · have hs2 : rest.getLast? = some '\n' := by
        rw [show c :: rest = [c] ++ rest from rfl,
          List.getLast?_append_of_ne_nil _ hr] at hs
        exact hs
      have hout := ih hs2
      by_cases hc : c = '\n'
      · subst hc
        show joinNl (splitLines ('\n' :: rest)) = _
        rw [splitLines_cons, if_pos rfl]
        show '\n' :: joinNl (splitLines rest) = _
        rw [hout]
      · have hne : splitLines rest ≠ [] := splitLines_ne_nil rest hr
        cases hsr : splitLines rest with
        | nil => exact absurd hsr hne
        | cons l ls =>
          show joinNl (splitLines (c :: rest)) = _
          rw [splitLines_cons, if_neg hc, hsr]
          show (c :: l) ++ '\n' :: joinNl ls = _
          have hj : joinNl (l :: ls) = rest := by rw [← hsr, hout]
          rw [← hj]
          rfl

theorem splitLines_single_line (l b : Str) (hl : ∀ c ∈ l, c ≠ '\n') :
    splitLines (l ++ '\n' :: b) = l :: splitLines b := by
  induction l with
  | nil => simp [splitLines]
  | cons c rest ih =>
    have hc : c ≠ '\n' := hl c (by simp)
    have ihr := ih (fun x hx => hl x (List.mem_cons_of_mem c hx))
    show splitLines (c :: (rest ++ '\n' :: b)) = (c :: rest) :: splitLines b
    rw [splitLines_cons, if_neg hc, ihr]

/-! ### Word-splitting lemmas for the include trigger -/

theorem wordsF_cons (c : Char) (s : Str) :
    wordsF (c :: s) =
      if isQtSpace c then [] :: wordsF s
      else
        match wordsF s with
        | [] => [[c]]
        | w :: ws => (c :: w) :: ws := rfl

theorem wordsF_nonspace (s : Str) (hne : s ≠ [])
    (h : ∀ c ∈ s, isQtSpace c = false) : wordsF s = [s] := by
  induction s with
  | nil => exact absurd rfl hne
  | cons c rest ih =>
    rw [wordsF_cons]
    rw [h c (by simp)]
    simp only [Bool.false_eq_true, if_false]
    by_cases hr : rest = []
    · subst hr
      rfl
    · have hw : wordsF rest = [rest] :=
        ih hr (fun x hx => h x (List.mem_cons_of_mem c hx))
      rw [hw]

theorem simplified_includeLineOf (name : Str) (hne : name ≠ [])
    (hws : ∀ c ∈ name, isQtSpace c = false) :
    simplified (includeLineOf name) = includeLineOf name := by
  have h1 : wordsF (name ++ [quoteChar]) = [name ++ [quoteChar]] := by
    apply wordsF_nonspace
    · simp
    · intro c hc
      rcases List.mem_append.mp hc with h | h
      · exact hws c h
      · simp at h
        subst h
        rfl
  have h2 : wordsF (includeMark ++ (name ++ [quoteChar])) =
      [("#include").data, quoteChar :: (name ++ [quoteChar])] := by
    unfold wordsF
    rw [List.foldr_append]
    have : List.foldr _ [] (name ++ [quoteChar]) =
        [name ++ [quoteChar]] := h1
    rw [this]
    rfl
  show simplified (includeMark ++ (name ++ [quoteChar])) =
    includeMark ++ (name ++ [quoteChar])
  unfold simplified
  rw [h2]
  have hfilter :
      (["#include".data, quoteChar :: (name ++ [quoteChar])].filter
        (fun w => w ≠ [])) =
      ["#include".data, quoteChar :: (name ++ [quoteChar])] := by
    simp
  rw [hfilter]
  have hint : List.intercalate [' ']
      ["#include".data, quoteChar :: (name ++ [quoteChar])] =
      "#include".data ++ ' ' :: quoteChar :: (name ++ [quoteChar]) := by
    simp [List.intercalate, List.intersperse]
  rw [hint]
  rfl

theorem isTriggerLine_includeLineOf (name : Str) (hne : name ≠ [])
    (hws : ∀ c ∈ name, isQtSpace c = false) :
    isTriggerLine (includeLineOf name) = true := by
  unfold isTriggerLine
  rw [simplified_includeLineOf name hne hws]
  exact List.isPrefixOf_iff_prefix.mpr
    ⟨name ++ [quoteChar], by simp [includeLineOf]⟩

theorem parseIncludeLine_includeLineOf (name : Str) (hne : name ≠ [])
    (hq : ∀ c ∈ name, c ≠ quoteChar) :
    parseIncludeLine (includeLineOf name) = some name := by
  have hdrop : (includeLineOf name).drop 10 = name ++ [quoteChar] := by
    show (includeMark ++ (name ++ [quoteChar])).drop 10 = _
    have h10 : includeMark.length = 10 := rfl
    rw [← h10, List.drop_left]
  have hmid : ((includeLineOf name).drop 10).dropLast = name := by
    rw [hdrop]
    exact List.dropLast_concat ..
  unfold parseIncludeLine
  simp only [hmid]
  rw [if_pos]
  refine ⟨rfl, hne, ?_⟩
  simp only [List.all_eq_true, decide_eq_true_eq]
  exact hq

/-! ### Structure of the include loop -/

theorem includeLoop_passthrough (env : ShaderEnv) (fn : Str) (lines : List Str)
    (ln hn : Nat) (h : ∀ l ∈ lines, isTriggerLine l = false) :
    includeLoop env fn lines ln hn = .ok (joinNl lines) := by
  induction lines generalizing ln with
  | nil => rfl
  | cons line rest ih =>
    have h1 := h line (by simp)
    unfold includeLoop
    simp only [h1, Bool.false_eq_true, if_false]
    rw [ih (ln + 1) (fun l hl => h l (List.mem_cons_of_mem line hl))]
    rfl

theorem countTriggers_nil : countTriggers [] = 0 := rfl

theorem countTriggers_cons (l : Str) (ls : List Str) :
    countTriggers (l :: ls) =
      countTriggers ls + (if isTriggerLine l then 1 else 0) := by
  unfold countTriggers
  rw [List.countP_cons]

theorem includeLoop_append (env : ShaderEnv) (fn : Str) (l1 l2 : List Str)
    (ln hn : Nat) :
    includeLoop env fn (l1 ++ l2) ln hn =
      (includeLoop env fn l1 ln hn).bind (fun s1 =>
        (includeLoop env fn l2 (ln + l1.length) (hn + countTriggers l1)).map
          (fun s2 => s1 ++ s2)) := by
  induction l1 generalizing ln hn with
  | nil =>
    show includeLoop env fn l2 ln hn =
      (includeLoop env fn l2 (ln + 0) (hn + countTriggers [])).map
        (fun s2 => [] ++ s2)
    rw [countTriggers_nil]
    simp only [Nat.add_zero]
    cases h : includeLoop env fn l2 ln hn <;> simp [Except.map]
  | cons line rest ih =>
    show includeLoop env fn (line :: (rest ++ l2)) ln hn = _
    simp only [includeLoop, List.length_cons]
    by_cases htrig : isTriggerLine line
    · simp only [htrig, if_true]
      cases hp : parseIncludeLine line with
      | none => rfl
      | some name =>
        by_cases hsuf : headerSuffix.isSuffixOf name
        · simp only [hsuf, if_true]
          cases hres : resolveHeader env name with
          | none => rfl
          | some header =>
            rw [ih (ln + 1) (hn + 1)]
            have hct : countTriggers (line :: rest) = countTriggers rest + 1 := by
              rw [countTriggers_cons, if_pos htrig]
            rw [hct]
            have hln : ln + 1 + rest.length = ln + (rest.length + 1) := by omega
            have hhn : hn + 1 + countTriggers rest =
                hn + (countTriggers rest + 1) := by omega
            rw [hln, hhn]
            cases h1 : includeLoop env fn rest (ln + 1) (hn + 1) with
            | error e => rfl
            | ok s1 =>
              cases h2 : includeLoop env fn l2 (ln + (rest.length + 1))
                  (hn + (countTriggers rest + 1)) with
              | error e => simp [Except.bind, Except.map]
              | ok s2 => simp [Except.bind, Except.map, List.append_assoc]
        · simp only [hsuf, if_false]
          rfl
    · simp only [htrig, Bool.false_eq_true, if_false]
      rw [ih (ln + 1) hn]
      have hct : countTriggers (line :: rest) = countTriggers rest := by
        rw [countTriggers_cons, if_neg htrig]
        omega
      rw [hct]
      have hln : ln + 1 + rest.length = ln + (rest.length + 1) := by omega
      rw [hln]
      cases h1 : includeLoop env fn rest (ln + 1) hn with
      | error e => rfl
      | ok s1 =>
        cases h2 : includeLoop env fn l2 (ln + (rest.length + 1))
            (hn + countTriggers rest) with
        | error e => simp [Except.bind, Except.map]
        | ok s2 => simp [Except.bind, Except.map]

theorem includeLine_no_newline (name : Str)
    (hws : ∀ c ∈ name, isQtSpace c = false) :
    ∀ c ∈ includeLineOf name, c ≠ '\n' := by
  have hm : ∀ c ∈ includeMark, c ≠ '\n' := by decide
  intro c hc
  rcases List.mem_append.mp hc with h | h
  · rcases List.mem_append.mp h with h2 | h2
    · exact hm c h2
    · intro hcn
      subst hcn
      exact absurd (hws _ h2) (by decide)
  · simp at h
    subst h
    decide

/-- C5: include resolution replaces each line exactly matching
`#include "<name>"` (name ending in .h.glsl) by the referenced header's text,
inserting a #line directive immediately before the inserted text and another
immediately after it that restores the including file's numbering; the names
const.h.glsl and densities.h.glsl resolve to the in-memory generated strings,
and every other name is loaded from the on-disk shader directory.  Any source
splits as `a ++ include-line ++ b around its first include line after `a`;
`aOut` is the expansion of the prefix, `countTriggers` tracks how many headers
were already substituted (the header sequence number). -/
theorem withHeadersIncluded_include_replacement :
    ∀ (env : ShaderEnv) (filename a name b header aOut : Str),
      (a = [] ∨ a.getLast? = some '\n') →
      name ≠ [] →
      (∀ c ∈ name, isQtSpace c = false ∧ c ≠ quoteChar) →
      headerSuffix.isSuffixOf name = true →
      resolveHeader env name = some header →
      includeLoop env filename (splitLines a) 1 1 = .ok aOut →
      (withHeadersIncluded env (a ++ (includeLineOf name ++ '\n' :: b))
          filename =
        (includeLoop env filename (splitLines b)
            ((splitLines a).length + 2)
            (countTriggers (splitLines a) + 2)).map
          (fun tail =>
            aOut ++ lineDirectiveBefore (countTriggers (splitLines a) + 1) name
              ++ header ++
              lineDirectiveAfter ((splitLines a).length + 2) filename ++
              tail)) ∧
      resolveHeader env CONSTANTS_HEADER_FILENAME = some env.constantsHeader ∧
      resolveHeader env DENSITIES_HEADER_FILENAME = some env.densitiesHeader ∧
      (name ≠ CONSTANTS_HEADER_FILENAME → name ≠ DENSITIES_HEADER_FILENAME →
        resolveHeader env name = env.disk name) := by
  intro env filename a name b header aOut ha hne hname hsuf hres haOut
  have hws : ∀ c ∈ name, isQtSpace c = false := fun c hc => (hname c hc).1
  have hq : ∀ c ∈ name, c ≠ quoteChar := fun c hc => (hname c hc).2
  refine ⟨?_, ?_, ?_, ?_⟩
  · unfold withHeadersIncluded
    rw [splitLines_append' a _ ha,
      splitLines_single_line _ b (includeLine_no_newline name hws),
      includeLoop_append, haOut]
    simp only [Except.bind]
    simp only [includeLoop, isTriggerLine_includeLineOf name hne hws, if_true,
      parseIncludeLine_includeLineOf name hne hq, hsuf, hres]
    have h1 : 1 + (splitLines a).length + 1 = (splitLines a).length + 2 := by
      omega
    have h2 : 1 + countTriggers (splitLines a) + 1 =
        countTriggers (splitLines a) + 2 := by omega
    have h3 : 1 + countTriggers (splitLines a) =
        countTriggers (splitLines a) + 1 := by omega
    rw [h1, h2, h3]
    cases hloop : includeLoop env filename (splitLines b)
        ((splitLines a).length + 2) (countTriggers (splitLines a) + 2) with
    | error e => simp [Except.map]
    | ok tail => simp [Except.map, List.append_assoc]
  · simp [resolveHeader]
  · simp [resolveHeader, CONSTANTS_HEADER_FILENAME, DENSITIES_HEADER_FILENAME]
  · intro h1 h2
    unfold resolveHeader
    rw [if_neg (fun h => h1 h), if_neg (fun h => h2 h)]

theorem withHeadersIncluded_include_replacement_witness :
    (("x\n").data = [] ∨ ("x\n").data.getLast? = some '\n') ∧
      CONSTANTS_HEADER_FILENAME ≠ [] ∧
      headerSuffix.isSuffixOf CONSTANTS_HEADER_FILENAME = true ∧
      resolveHeader envW CONSTANTS_HEADER_FILENAME =
        some envW.constantsHeader ∧
      includeLoop envW (("f.frag").data) (splitLines (("x\n").data)) 1 1 =
        .ok (("x\n").data) ∧
      (withHeadersIncluded envW
          (("x\n").data ++
            (includeLineOf CONSTANTS_HEADER_FILENAME ++
              '\n' :: ("y\n").data)) (("f.frag").data) =
        (includeLoop envW (("f.frag").data) (splitLines (("y\n").data))
            ((splitLines (("x\n").data)).length + 2)
            (countTriggers (splitLines (("x\n").data)) + 2)).map
          (fun tail =>
            ("x\n").data ++
              lineDirectiveBefore
                (countTriggers (splitLines (("x\n").data)) + 1)
                CONSTANTS_HEADER_FILENAME ++
              envW.constantsHeader ++
              lineDirectiveAfter ((splitLines (("x\n").data)).length + 2)
                (("f.frag").data) ++ tail)) :=
  ⟨Or.inr (by decide), by decide, by decide, rfl,
    by decide,
    (withHeadersIncluded_include_replacement envW (("f.frag").data)
      (("x\n").data) CONSTANTS_HEADER_FILENAME (("y\n").data)
      envW.constantsHeader (("x\n").data) (Or.inr (by decide))
      (by decide) (by decide) (by decide) rfl
      (by decide)).1⟩

/-- C10: the header-inclusion function performs exactly one level of expansion
and always terminates (it is a total structurally-recursive function over the
lines of its input): the text of an included header is inserted verbatim, so
any `#include` directive occurring inside it survives as text instead of
being expanded recursively, and no recursion-depth check exists on this path.
Here `header` is arbitrary; in particular it may itself consist of include
directives, and the whole of it is an infix of the output. -/
theorem withHeadersIncluded_one_level :
    ∀ (env : ShaderEnv) (filename a name b header out : Str),
      (a = [] ∨ a.getLast? = some '\n') →
      name ≠ [] →
      (∀ c ∈ name, isQtSpace c = false ∧ c ≠ quoteChar) →
      headerSuffix.isSuffixOf name = true →
      resolveHeader env name = some header →
      withHeadersIncluded env (a ++ (includeLineOf name ++ '\n' :: b))
          filename = .ok out →
      header <:+: out := by
  intro env filename a name b header out ha hne hname hsuf hres hok
  have hws : ∀ c ∈ name, isQtSpace c = false := fun c hc => (hname c hc).1
  have hq : ∀ c ∈ name, c ≠ quoteChar := fun c hc => (hname c hc).2
  rw [withHeadersIncluded, splitLines_append' a _ ha,
    splitLines_single_line _ b (includeLine_no_newline name hws),
    includeLoop_append] at hok
  cases h1 : includeLoop env filename (splitLines a) 1 1 with
  | error e =>
    rw [h1] at hok
    exact absurd hok (by simp [Except.bind])
  | ok s1 =>
    rw [h1] at hok
    simp only [Except.bind] at hok
    simp only [includeLoop, isTriggerLine_includeLineOf name hne hws, if_true,
      parseIncludeLine_includeLineOf name hne hq, hsuf, hres] at hok
    cases h2 : includeLoop env filename (splitLines b)
        (1 + (splitLines a).length + 1)
        (1 + countTriggers (splitLines a) + 1) with
    | error e =>
      rw [h2] at hok
      exact absurd hok (by simp [Except.map])
    | ok tail =>
      rw [h2] at hok
      simp only [Except.map, Except.ok.injEq] at hok
      refine ⟨s1 ++ lineDirectiveBefore
        (1 + countTriggers (splitLines a)) name,
        lineDirectiveAfter (1 + (splitLines a).length + 1) filename ++ tail,
        ?_⟩
      rw [← hok]
      simp [List.append_assoc]

theorem withHeadersIncluded_one_level_witness :
    resolveHeader envW (("nested.h.glsl").data) =
        some (includeLineOf (("other.h.glsl").data) ++
          '\n' :: ("AFTER\n").data) ∧
      withHeadersIncluded envW
          ([] ++ (includeLineOf (("nested.h.glsl").data) ++ '\n' :: []))
          (("f.frag").data) =
        .ok (lineDirectiveBefore 1 (("nested.h.glsl").data) ++
          (includeLineOf (("other.h.glsl").data) ++ '\n' :: ("AFTER\n").data)
          ++ lineDirectiveAfter 2 (("f.frag").data) ++ []) ∧
      (includeLineOf (("other.h.glsl").data) ++ '\n' :: ("AFTER\n").data) <:+:
        (lineDirectiveBefore 1 (("nested.h.glsl").data) ++
          (includeLineOf (("other.h.glsl").data) ++ '\n' :: ("AFTER\n").data)
          ++ lineDirectiveAfter 2 (("f.frag").data) ++ []) :=
  ⟨by decide, by decide,
    withHeadersIncluded_one_level envW (("f.frag").data) []
      (("nested.h.glsl").data) []
      (includeLineOf (("other.h.glsl").data) ++ '\n' :: ("AFTER\n").data)
      (lineDirectiveBefore 1 (("nested.h.glsl").data) ++
        (includeLineOf (("other.h.glsl").data) ++ '\n' :: ("AFTER\n").data) ++
        lineDirectiveAfter 2 (("f.frag").data) ++ [])
      (Or.inl rfl) (by decide) (by decide) (by decide)
      (by decide) (by decide)⟩

/-- C2: the generated transmittance-compute source is the include-expanded
head followed verbatim by: the density functions, one optical-depth function
per species obtained from the trapezoid-rule template by substituting the
`agent##`/`##agentSpecies` tokens (all scatterers first, then all absorbers),
and a main function computeTransmittanceToAtmosphereBorder that returns
exp(-depth), where depth is the sum over every species (scatterers first) of
its optical-depth function applied with that species' cross-section embedded
as a literal 4-vector in the source text (not a uniform).  The side condition
asks that no line contributed by the user-supplied density expressions or
species names looks like an include directive. -/
theorem makeTransmittance_source_structure :
    ∀ (env : ShaderEnv) (scatterers absorbers : List SpeciesSrc)
      (pre tail : Str),
      tail = makeDensitiesFunctions scatterers absorbers ++
        ((scatterers.map (opticalDepthFunctionFor scattererKind)).flatten ++
          (absorbers.map (opticalDepthFunctionFor absorberKind)).flatten) ++
        (computeFunctionOpen ++
          (scatterers.map opticalDepthCallLine).flatten ++
          (absorbers.map opticalDepthCallLine).flatten ++
          computeFunctionClose) →
      withHeadersIncluded env transmittanceHead
          (virtualTag COMPUTE_TRANSMITTANCE_SHADER_FILENAME) = .ok pre →
      (∀ l ∈ splitLines tail, isTriggerLine l = false) →
      makeTransmittanceComputeFunctionsSrc env scatterers absorbers =
        .ok (pre ++ tail) := by
  intro env sc ab pre tail htail hpre hnotrig
  have hclose : computeFunctionClose ≠ [] := by decide
  have hTend : tail.getLast? = some '\n' := by
    rw [htail]
    rw [List.getLast?_append_of_ne_nil _
      (fun h => hclose (List.append_eq_nil.mp h).2)]
    rw [List.getLast?_append_of_ne_nil _ hclose]
    decide
  simp only [makeTransmittanceComputeFunctionsSrc]
  have harg : transmittanceHead ++ makeDensitiesFunctions sc ab ++
      ((sc.map (opticalDepthFunctionFor scattererKind)).flatten ++
        (ab.map (opticalDepthFunctionFor absorberKind)).flatten) ++
      (computeFunctionOpen ++ (sc.map opticalDepthCallLine).flatten ++
        (ab.map opticalDepthCallLine).flatten ++ computeFunctionClose) =
      transmittanceHead ++ tail := by
    rw [htail]
    simp [List.append_assoc]
  rw [harg]
  unfold withHeadersIncluded
  rw [splitLines_append transmittanceHead tail (by decide), includeLoop_append]
  have hpre2 : includeLoop env
      (virtualTag COMPUTE_TRANSMITTANCE_SHADER_FILENAME)
      (splitLines transmittanceHead) 1 1 = .ok pre := hpre
  rw [hpre2]
  simp only [Except.bind]
  rw [includeLoop_passthrough env _ (splitLines tail) _ _ hnotrig]
  rw [joinNl_splitLines tail hTend]
  rfl

set_option maxRecDepth 100000 in
theorem makeTransmittance_source_structure_witness :
    withHeadersIncluded envW transmittanceHead
        (virtualTag COMPUTE_TRANSMITTANCE_SHADER_FILENAME) =
      .ok (("#version 330\n#extension GL_ARB_shading_language_420pack : require\n\n#line 1 1 // const.h.glsl\nCONSTS\n#line 5 0 // (virtual)compute-transmittance.frag\n#line 1 2 // common-functions.h.glsl\nCOMMON\n#line 6 0 // (virtual)compute-transmittance.frag\n").data) ∧
      makeTransmittanceComputeFunctionsSrc envW [speciesAir] [speciesOzone] =
        .ok (("#version 330\n#extension GL_ARB_shading_language_420pack : require\n\n#line 1 1 // const.h.glsl\nCONSTS\n#line 5 0 // (virtual)compute-transmittance.frag\n#line 1 2 // common-functions.h.glsl\nCOMMON\n#line 6 0 // (virtual)compute-transmittance.frag\n").data ++
          (makeDensitiesFunctions [speciesAir] [speciesOzone] ++
            (([speciesAir].map
                (opticalDepthFunctionFor scattererKind)).flatten ++
              ([speciesOzone].map
                (opticalDepthFunctionFor absorberKind)).flatten) ++
            (computeFunctionOpen ++
              ([speciesAir].map opticalDepthCallLine).flatten ++
              ([speciesOzone].map opticalDepthCallLine).flatten ++
              computeFunctionClose))) :=
  ⟨rfl,
    makeTransmittance_source_structure envW [speciesAir] [speciesOzone] _ _
      rfl rfl (by decide)⟩

/-! ### The include-graph traversal (C6) -/

theorem recursedOfLines_cons (env : LinkEnv) (filename line : Str)
    (rest : List Str) :
    recursedOfLines env filename (line :: rest) =
      (match parseLinkIncludeLine line with
       | none => recursedOfLines env filename rest
       | some base =>
         if base ++ headerSuffix = CONSTANTS_HEADER_FILENAME then
           recursedOfLines env filename rest
         else if env.internalShaders (base ++ fragSuffix) ∨
             base ++ fragSuffix = filename then
           recursedOfLines env filename rest
         else (base ++ fragSuffix) :: recursedOfLines env filename rest) := by
  unfold recursedOfLines
  cases hp : parseLinkIncludeLine line with
  | none => rw [List.filterMap_cons, hp]
  | some base =>
    rw [List.filterMap_cons, hp]
    by_cases hconst : base ++ headerSuffix = CONSTANTS_HEADER_FILENAME
    · rw [List.filterMap_cons]
      simp only [hconst, if_true]
    · by_cases hint : env.internalShaders (base ++ fragSuffix) ∨
          base ++ fragSuffix = filename
      · rw [List.filterMap_cons]
        simp only [hconst, if_false, hint, if_true]
      · rw [List.filterMap_cons]
        simp only [hconst, if_false, hint, if_true]

theorem linkScan_ok_iff (env : LinkEnv) (filename : Str) (fuel : Nat) :
    ∀ (lines : List Str) (acc : List Str),
      (∃ out, lines.foldlM
          (linkScanStep env filename (linkFilesAux env fuel)) acc =
        .ok out) ↔
      (∀ g ∈ recursedOfLines env filename lines,
        ∃ s, linkFilesAux env fuel g = .ok s) := by
  intro lines
  induction lines with
  | nil =>
    intro acc
    constructor
    · intro _ g hg
      exact absurd hg (List.not_mem_nil g)
    · intro _
      exact ⟨acc, rfl⟩
  | cons line rest ih =>
    intro acc
    rw [List.foldlM_cons, recursedOfLines_cons]
    cases hp : parseLinkIncludeLine line with
    | none =>
      simp only [linkScanStep, hp]
      exact ih acc
    | some base =>
      simp only [linkScanStep, hp]
      by_cases hconst : base ++ headerSuffix = CONSTANTS_HEADER_FILENAME
      · simp only [hconst, if_true]
        exact ih acc
      · rw [if_neg hconst, if_neg hconst]
        by_cases hint : env.internalShaders (base ++ fragSuffix) ∨
            base ++ fragSuffix = filename
        · rw [if_pos hint, if_pos hint]
          exact ih (insertSet acc (base ++ fragSuffix))
        · rw [if_neg hint, if_neg hint]
          cases haux : linkFilesAux env fuel (base ++ fragSuffix) with
          | error e =>
            constructor
            · rintro ⟨out, hout⟩
              exact absurd (show (Except.error e : Except LinkError (List Str)) =
                .ok out from hout) (by simp)
            · intro h
              rcases h (base ++ fragSuffix) (List.mem_cons_self ..) with ⟨s, hs⟩
              rw [haux] at hs
              exact Except.noConfusion hs
          | ok extra =>
            constructor
            · rintro ⟨out, hout⟩
              intro g hg
              rcases List.mem_cons.mp hg with hg | hg
              · subst hg
                exact ⟨extra, haux⟩
              · exact (ih _).mp ⟨out, hout⟩ g hg
            · intro h
              rcases (ih (unionSet (insertSet acc (base ++ fragSuffix))
                  extra)).mpr
                  (fun g hg => h g (List.mem_cons_of_mem _ hg)) with ⟨out, hout⟩
              exact ⟨out, hout⟩

theorem linkFilesAux_ok_iff_avail (env : LinkEnv) :
    ∀ (fuel : Nat) (f : Str),
      (∃ s, linkFilesAux env fuel f = .ok s) ↔ Avail env f fuel := by
  intro fuel
  induction fuel with
  | zero =>
    intro f
    constructor
    · rintro ⟨s, hs⟩
      exact Except.noConfusion hs
    · intro h
      cases h
  | succ fuel ih =>
    intro f
    constructor
    · rintro ⟨s, hs⟩
      unfold linkFilesAux at hs
      cases hsrc : env.getSrc f with
      | none =>
        rw [hsrc] at hs
        exact Except.noConfusion hs
      | some src =>
        rw [hsrc] at hs
        refine Avail.step f fuel src hsrc ?_
        intro g hg
        exact (ih g).mp
          ((linkScan_ok_iff env f fuel (splitLines src) []).mp ⟨s, hs⟩ g hg)
    · intro h
      cases h with
      | step _ _ src hsrc hrec =>
        rcases (linkScan_ok_iff env f fuel (splitLines src) []).mpr
          (fun g hg => (ih g).mpr (hrec g hg)) with ⟨out, hout⟩
        refine ⟨out, ?_⟩
        unfold linkFilesAux
        rw [hsrc]
        exact hout

theorem linkScanStep_error (env : LinkEnv) (filename : Str)
    (recurse : Str → Except LinkError (List Str)) (acc : List Str)
    (line : Str) (e : LinkError)
    (h : linkScanStep env filename recurse acc line = .error e) :
    ∃ g, recurse g = .error e := by
  cases hp : parseLinkIncludeLine line with
  | none =>
    simp only [linkScanStep, hp] at h
    exact Except.noConfusion h
  | some base =>
    simp only [linkScanStep, hp] at h
    by_cases hconst : base ++ headerSuffix = CONSTANTS_HEADER_FILENAME
    · rw [if_pos hconst] at h
      exact Except.noConfusion h
    · rw [if_neg hconst] at h
      by_cases hint : env.internalShaders (base ++ fragSuffix) ∨
          base ++ fragSuffix = filename
      · rw [if_pos hint] at h
        exact Except.noConfusion h
      · rw [if_neg hint] at h
        cases hrec : recurse (base ++ fragSuffix) with
        | error e2 =>
          rw [hrec] at h
          have h2 : (Except.error e2 : Except LinkError (List Str)) =
              .error e := h
          injection h2 with h3
          exact ⟨base ++ fragSuffix, by rw [hrec, h3]⟩
        | ok extra =>
          rw [hrec] at h
          exact Except.noConfusion h

theorem linkScan_error (env : LinkEnv) (filename : Str) (fuel : Nat) :
    ∀ (lines : List Str) (acc : List Str) (e : LinkError),
      lines.foldlM (linkScanStep env filename (linkFilesAux env fuel)) acc =
        .error e →
      ∃ g, linkFilesAux env fuel g = .error e := by
  intro lines
  induction lines with
  | nil =>
    intro acc e h
    exact Except.noConfusion h
  | cons line rest ih =>
    intro acc e h
    rw [List.foldlM_cons] at h
    cases hs : linkScanStep env filename (linkFilesAux env fuel) acc line with
    | error e2 =>
      rw [hs] at h
      have h2 : (Except.error e2 : Except LinkError (List Str)) = .error e := h
      injection h2 with h3
      subst h3
      exact linkScanStep_error env filename _ acc line e2 hs
    | ok acc2 =>
      rw [hs] at h
      exact ih acc2 e h

theorem linkFilesAux_error_depth (env : LinkEnv)
    (htotal : ∀ g, env.getSrc g ≠ none) :
    ∀ (fuel : Nat) (f : Str) (e : LinkError),
      linkFilesAux env fuel f = .error e → e = .depthExceeded := by
  intro fuel
  induction fuel with
  | zero =>
    intro f e h
    have h2 : (Except.error LinkError.depthExceeded :
        Except LinkError (List Str)) = .error e := h
    injection h2 with h3
    exact h3.symm
  | succ fuel ih =>
    intro f e h
    cases hsrc : env.getSrc f with
    | none => exact absurd hsrc (htotal f)
    | some src =>
      unfold linkFilesAux at h
      rw [hsrc] at h
      rcases linkScan_error env f fuel (splitLines src) [] e h with ⟨g, hg⟩
      exact ih g e hg

/-- C6 counterexample: the claim concludes that cyclic include graphs always
fail, but a file that includes its own header (`a.frag` → `a.h.glsl`, a cycle
in the include graph) is skipped by the `shaderFileNameToLinkWith != filename`
test and the traversal succeeds. -/
theorem getShaderFileNames_cycle_claim_false :
    ¬ (∀ (env : LinkEnv) (f : Str), f ∈ includeMentions env f →
        ∃ e, getShaderFileNamesToLinkWith env f 0 = .error e) := by
  intro h
  rcases h lenvSelf (("a.frag").data) (by decide) with ⟨e, he⟩
  rw [show getShaderFileNamesToLinkWith lenvSelf (("a.frag").data) 0 =
    .ok [("a.frag").data] from by decide] at he
  exact Except.noConfusion he

/-- C6 amended: the traversal always terminates; when every referenced file
exists, it succeeds exactly when every chain of recursed includes starting at
the root stays within the depth-50 budget (`Avail env f 51`), and its only
failure is the depth-exceeded error.  Cyclic include graphs fail only when
the cycle passes through actual recursive calls: an include whose companion
is the current file itself or an internal shader is skipped, so such cyclic
graphs can succeed. -/
theorem getShaderFileNames_amended :
    ∀ (env : LinkEnv) (f : Str), (∀ g, env.getSrc g ≠ none) →
      ((∃ s, getShaderFileNamesToLinkWith env f 0 = .ok s) ↔
        Avail env f 51) ∧
      (∀ e, getShaderFileNamesToLinkWith env f 0 = .error e →
        e = .depthExceeded) := by
  intro env f htotal
  constructor
  · exact linkFilesAux_ok_iff_avail env 51 f
  · intro e he
    exact linkFilesAux_error_depth env htotal 51 f e he

theorem getShaderFileNames_amended_witness :
    (∀ g, lenvSelf.getSrc g ≠ none) ∧
      Avail lenvSelf (("a.frag").data) 51 ∧
      (∃ s, getShaderFileNamesToLinkWith lenvSelf (("a.frag").data) 0 =
        .ok s) := by
  have htotal : ∀ g, lenvSelf.getSrc g ≠ none := by
    intro g
    show (if g = ("a.frag").data then
      some (includeLineOf (("a.h.glsl").data) ++ ['\n']) else some []) ≠ none
    split <;> simp
  have hav : Avail lenvSelf (("a.frag").data) 51 := by
    refine Avail.step _ 50 (includeLineOf (("a.h.glsl").data) ++ ['\n'])
      rfl ?_
    intro g hg
    have hempty : linkRecursedIncludes lenvSelf (("a.frag").data)
        (includeLineOf (("a.h.glsl").data) ++ ['\n']) = [] := by decide
    rw [hempty] at hg
    exact absurd hg (List.not_mem_nil g)
  exact ⟨htotal, hav,
    (getShaderFileNames_amended lenvSelf (("a.frag").data) htotal).1.mpr hav⟩

/-! ### Cache coherence of the scheduler (C8) -/

theorem applyEvents_append (s : CacheState) (a b : List SchedulerEvent) :
    applyEvents s (a ++ b) = applyEvents (applyEvents s a) b := by
  unfold applyEvents
  exact List.foldl_append ..

theorem freshRun_append (a b : List SchedulerEvent) :
    ∀ s : CacheState,
      FreshRun s (a ++ b) ↔ FreshRun s a ∧ FreshRun (applyEvents s a) b := by
  induction a with
  | nil =>
    intro s
    show FreshRun s b ↔ True ∧ FreshRun s b
    simp
  | cons e a ih =>
    intro s
    show compileFresh s e ∧ FreshRun (applyEvent s e) (a ++ b) ↔
      (compileFresh s e ∧ FreshRun (applyEvent s e) a) ∧ _
    rw [ih (applyEvent s e)]
    have : applyEvents s (e :: a) = applyEvents (applyEvent s e) a := rfl
    rw [this]
    tauto

theorem goodChunk_append {a b : List SchedulerEvent}
    (ha : GoodChunk a) (hb : GoodChunk b) : GoodChunk (a ++ b) := by
  intro s hs
  rcases ha s hs with ⟨hfa, hca⟩
  rcases hb (applyEvents s a) hca with ⟨hfb, hcb⟩
  rw [freshRun_append, applyEvents_append]
  exact ⟨⟨hfa, hfb⟩, hcb⟩

theorem goodChunk_nil : GoodChunk [] := by
  intro s hs
  exact ⟨trivial, hs⟩

theorem goodChunk_flatten {L : List (List SchedulerEvent)}
    (h : ∀ x ∈ L, GoodChunk x) : GoodChunk L.flatten := by
  induction L with
  | nil => exact goodChunk_nil
  | cons x L ih =>
    rw [List.flatten_cons]
    exact goodChunk_append (h x (by simp))
      (ih (fun y hy => h y (List.mem_cons_of_mem x hy)))

theorem coherent_compile (s : CacheState) (n : Str) (hs : Coherent s) :
    Coherent (applyEvent s (.compileOf n)) := by
  cases hc : s.cache n with
  | some v =>
    have hstate : applyEvent s (.compileOf n) = s := by
      simp [applyEvent, hc]
    rw [hstate]
    exact hs
  | none =>
    have hstate : applyEvent s (.compileOf n) =
        { s with
          cache := fun m => if m = n then some (s.virt n) else s.cache m } := by
      simp [applyEvent, hc]
    rw [hstate]
    intro m v h
    dsimp only at h ⊢
    by_cases hm : m = n
    · subst hm
      rw [if_pos rfl] at h
      injection h with h2
      exact h2.symm
    · rw [if_neg hm] at h
      exact hs m v h

theorem goodChunk_compileProgram (files : List Str) :
    GoodChunk (compileProgramEvents files) := by
  induction files with
  | nil => exact goodChunk_nil
  | cons f files ih =>
    intro s hs
    have hcoh := coherent_compile s f hs
    rcases ih (applyEvent s (.compileOf f)) hcoh with ⟨hfr, hc⟩
    exact ⟨⟨fun v hv => hs f v hv, hfr⟩, hc⟩

theorem goodChunk_evictRewrite (n : Str) : GoodChunk (evictRewrite n) := by
  intro s hs
  refine ⟨⟨trivial, trivial, trivial⟩, ?_⟩
  have hstate : applyEvents s (evictRewrite n) =
      { cache := fun m => if m = n then none else s.cache m,
        virt := fun m => if m = n then s.virt m + 1 else s.virt m } := rfl
  rw [hstate]
  intro m v h
  dsimp only at h ⊢
  by_cases hm : m = n
  · rw [if_pos hm] at h
    exact Option.noConfusion h
  · rw [if_neg hm] at h
    rw [if_neg hm]
    exact hs m v h

theorem goodChunk_clearWrites (a b c : Str) :
    GoodChunk [.clearShaders, .writeVirtual a, .writeVirtual b,
      .writeVirtual c] := by
  intro s hs
  refine ⟨⟨trivial, trivial, trivial, trivial, trivial⟩, ?_⟩
  intro m v h
  have h2 : (none : Option Nat) = some v := h
  exact Option.noConfusion h2

/-- C8: along the whole per-wavelength-set schedule, every rewrite of a
virtual source file (densities, phase functions, scattering density, indirect
irradiance, and the three sources regenerated after the cache clear) is
preceded by the eviction of the corresponding compiled-shader cache entry, so
starting from any coherent cache every getOrCompileShader call sees the
current version of its file — never a shader compiled from a stale version —
and the cache stays coherent. -/
theorem scheduler_cache_coherent :
    ∀ (p : TraceParams) (s : CacheState), Coherent s →
      FreshRun s (perSetTrace p) ∧
        Coherent (applyEvents s (perSetTrace p)) := by
  intro p
  have hbody : ∀ i, GoodChunk (scattererBodyTrace p i) := by
    intro i
    unfold scattererBodyTrace singleScatteringTrace
      indirectIrradianceOrder1Trace
    exact goodChunk_append (goodChunk_append (goodChunk_append
        (goodChunk_evictRewrite _) (goodChunk_compileProgram _))
        (goodChunk_append (goodChunk_append (goodChunk_evictRewrite _)
          (goodChunk_evictRewrite _)) (goodChunk_compileProgram _)))
      (goodChunk_append (goodChunk_append (goodChunk_evictRewrite _)
        (goodChunk_evictRewrite _)) (goodChunk_compileProgram _))
  have horder2 : GoodChunk (scatteringDensityOrder2Trace p) := by
    unfold scatteringDensityOrder2Trace
    exact goodChunk_append (goodChunk_append (goodChunk_append
        (goodChunk_append (goodChunk_evictRewrite _)
          (goodChunk_evictRewrite _)) (goodChunk_evictRewrite _))
        (goodChunk_compileProgram _))
      (goodChunk_flatten (fun x hx => by
        rcases List.mem_map.mp hx with ⟨i, _, hi⟩
        exact hi ▸ hbody i))
  have hhigher : ∀ o, GoodChunk (higherOrderTrace p o) := by
    intro o
    unfold higherOrderTrace
    exact goodChunk_append (goodChunk_append (goodChunk_append
        (goodChunk_append (goodChunk_evictRewrite _)
          (goodChunk_compileProgram _))
        (goodChunk_append (goodChunk_evictRewrite _)
          (goodChunk_compileProgram _)))
        (goodChunk_compileProgram _)) (goodChunk_compileProgram _)
  have hall : GoodChunk (perSetTrace p) := by
    unfold perSetTrace
    exact goodChunk_append (goodChunk_append (goodChunk_append
        (goodChunk_append (goodChunk_append (goodChunk_clearWrites _ _ _)
          (goodChunk_compileProgram _)) (goodChunk_compileProgram _))
        horder2) (goodChunk_compileProgram _))
      (goodChunk_flatten (fun x hx => by
        rcases List.mem_map.mp hx with ⟨o, _, ho⟩
        exact ho ▸ hhigher o))
  exact fun s hs => hall s hs

theorem scheduler_cache_coherent_witness :
    Coherent cacheState0 ∧
      FreshRun cacheState0 (perSetTrace traceParams0) ∧
        Coherent (applyEvents cacheState0 (perSetTrace traceParams0)) := by
  have hcoh : Coherent cacheState0 := by
    intro m v h
    exact absurd h (by simp [cacheState0])
  exact ⟨hcoh, scheduler_cache_coherent traceParams0 cacheState0 hcoh⟩

/-! ### The compile-failure dump (C9) -/

theorem lastDirectiveBefore_succ (lines : List Str) (i : Nat) :
    lastDirectiveBefore lines (i + 1) =
      (match parseLineDirective (lines.getD i []) with
       | some n => some (i, n)
       | none => lastDirectiveBefore lines i) := rfl

theorem dumpLinesFrom_cons (line : Str) (rest : List Str) (start : Nat) :
    dumpLinesFrom (line :: rest) start =
      (start, line) :: dumpLinesFrom rest
        (match parseLineDirective line with
         | some n => n
         | none => start + 1) := rfl

theorem lastDirectiveBefore_cons (l : Str) (lines : List Str) (i : Nat) :
    lastDirectiveBefore (l :: lines) (i + 1) =
      (match lastDirectiveBefore lines i with
       | some jn => some (jn.1 + 1, jn.2)
       | none =>
         match parseLineDirective l with
         | some n => some (0, n)
         | none => none) := by
  induction i with
  | zero =>
    rw [lastDirectiveBefore_succ, List.getD_cons_zero]
    cases hparse : parseLineDirective l with
    | some n => rfl
    | none => rfl
  | succ i ih =>
    rw [lastDirectiveBefore_succ (l :: lines) (i + 1), List.getD_cons_succ,
      lastDirectiveBefore_succ lines i]
    cases hparse : parseLineDirective (lines.getD i []) with
    | some n => rfl
    | none => exact ih

theorem dumpLinesFrom_spec :
    ∀ (lines : List Str) (start : Nat),
      dumpLinesFrom lines start = (List.range lines.length).map (fun i =>
        ((match lastDirectiveBefore lines i with
          | some jn => jn.2 + (i - jn.1) - 1
          | none => start + i), lines.getD i [])) := by
  intro lines
  induction lines with
  | nil => intro start; rfl
  | cons line rest ih =>
    intro start
    rw [dumpLinesFrom_cons, List.length_cons, List.range_succ_eq_map,
      List.map_cons, List.map_map]
    simp only [List.cons.injEq]
    refine ⟨?_, ?_⟩
    · show (start, line) = (start + 0, line)
      rw [Nat.add_zero]
    · rw [ih]
      apply List.map_congr_left
      intro i hi
      show ((match lastDirectiveBefore rest i with
          | some jn => jn.2 + (i - jn.1) - 1
          | none =>
            (match parseLineDirective line with
             | some n => n
             | none => start + 1) + i), rest.getD i []) = _
      simp only [Function.comp]
      rw [lastDirectiveBefore_cons, List.getD_cons_succ]
      cases hldb : lastDirectiveBefore rest i with
      | some jn =>
        show (jn.2 + (i - jn.1) - 1, rest.getD i []) =
          (jn.2 + (i + 1 - (jn.1 + 1)) - 1, rest.getD i [])
        rw [Nat.succ_sub_succ]
      | none =>
        cases hparse : parseLineDirective line with
        | some n =>
          show (n + i, rest.getD i []) = (n + (i + 1 - 0) - 1, rest.getD i [])
          rfl
        | none =>
          show (start + 1 + i, rest.getD i []) =
            (start + (i + 1), rest.getD i [])
          congr 1
          omega

/-- C9: on every shader compile failure, before the run aborts with a
non-zero exit, the full assembled source is printed with line numbers — line
i (0-based) of the assembled source appears with number `specLineNumber`,
which counts from the value of the last preceding `#line` directive so that
subsequent lines are numbered against the original included file — and the
failure is fatal: the model returns the error and main() exits with code 1,
recovering nothing. -/
theorem compileShader_failure_dump :
    ∀ (env : ShaderEnv) (gpuAccepts : Str → Bool)
      (source description assembled : Str),
      withHeadersIncluded env source description = .ok assembled →
      gpuAccepts assembled = false →
      compileShaderModel env gpuAccepts source description =
        .error (.compileFailed
          ((List.range (splitLines assembled).length).map (fun i =>
            (specLineNumber (splitLines assembled) i,
              (splitLines assembled).getD i [])))) ∧
      generatorExitCode
        (compileShaderModel env gpuAccepts source description) = 1 := by
  intro env gpu src desc asm hinc hrej
  have hdump : numberedDump asm =
      (List.range (splitLines asm).length).map (fun i =>
        (specLineNumber (splitLines asm) i, (splitLines asm).getD i [])) := by
    unfold numberedDump
    rw [dumpLinesFrom_spec]
    apply List.map_congr_left
    intro i hi
    unfold specLineNumber
    cases hldb : lastDirectiveBefore (splitLines asm) i with
    | some jn => rfl
    | none =>
      show (1 + i, _) = (i + 1, _)
      rw [Nat.add_comm]
  have hmodel : compileShaderModel env gpu src desc =
      .error (.compileFailed (numberedDump asm)) := by
    unfold compileShaderModel
    rw [hinc]
    show (if gpu asm then Except.ok asm
        else Except.error (ShaderFailure.compileFailed (numberedDump asm))) =
      Except.error (ShaderFailure.compileFailed (numberedDump asm))
    rw [hrej]
    rfl
  refine ⟨by rw [hmodel, hdump], by rw [hmodel]; rfl⟩

theorem compileShader_failure_dump_witness :
    withHeadersIncluded envW (("A\n#include \x22const.h.glsl\x22\nB\n").data)
        (("f.frag").data) =
      .ok (("A\n#line 1 1 // const.h.glsl\nCONSTS\n#line 3 0 // f.frag\nB\n").data) ∧
      (fun _ : Str => false)
        (("A\n#line 1 1 // const.h.glsl\nCONSTS\n#line 3 0 // f.frag\nB\n").data) = false ∧
      compileShaderModel envW (fun _ => false)
          (("A\n#include \x22const.h.glsl\x22\nB\n").data) (("f.frag").data) =
        .error (.compileFailed
          ((List.range (splitLines (("A\n#line 1 1 // const.h.glsl\nCONSTS\n#line 3 0 // f.frag\nB\n").data)).length).map
            (fun i =>
              (specLineNumber
                (splitLines (("A\n#line 1 1 // const.h.glsl\nCONSTS\n#line 3 0 // f.frag\nB\n").data)) i,
                (splitLines (("A\n#line 1 1 // const.h.glsl\nCONSTS\n#line 3 0 // f.frag\nB\n").data)).getD i [])))) ∧
      generatorExitCode (compileShaderModel envW (fun _ => false)
        (("A\n#include \x22const.h.glsl\x22\nB\n").data) (("f.frag").data)) = 1 := by
  have h := compileShader_failure_dump envW (fun _ => false)
    (("A\n#include \x22const.h.glsl\x22\nB\n").data) (("f.frag").data)
    (("A\n#line 1 1 // const.h.glsl\nCONSTS\n#line 3 0 // f.frag\nB\n").data)
    rfl rfl
  exact ⟨rfl, rfl, h.1, h.2⟩

end CalcMySky
